import Mathlib

/-!
Verification of `src/pdf_read.py` (`process_zip_to_searchable_pdf`) against the
repository's specification.

The embedding models the single conversion function of the repository.  External
collaborators (PIL image decoding, the ocrmypdf OCR engine, the `pngquant`
presence check) are modelled as an explicit environment: per-entry decodability,
a per-image OCR success oracle, and a Boolean for `pngquant` on the PATH.
Streamlit UI messages (`st.warning` / `st.error`) are modelled as an output log;
the Python function's return value (`pdf_bytes` or `None`) is the `pdf` field of
the run result.  Archive entries are modelled at the archive root (plain file
names), matching the common case walked by `os.walk` over the extraction
directory.  Temporary on-disk state is modelled as a list of file paths, with
the two `tempfile.TemporaryDirectory()` context managers deleting their contents
on every exit path.
-/

namespace ZipOcr

/-- One entry of the uploaded ZIP archive: its file name, the abstract content
of its decoded (RGB-normalized) raster, whether `PIL.Image.open`/`convert`/
`save` succeeds on it, and the exception text `str(e)` shown when it does not. -/
structure ZipEntry where
  name : String
  content : Nat
  decodable : Bool
  err : String
deriving Repr, DecidableEq

/-- The uploaded archive: whether `zipfile.ZipFile(zip_file, 'r')` succeeds,
the exception text when it does not, and the entries it contains. -/
structure Archive where
  readable : Bool
  readErr : String
  entries : List ZipEntry
deriving Repr, DecidableEq

/-- The external environment of one run: whether `pngquant` is on the PATH
(`shutil.which('pngquant')`, line 73), whether the external OCR engine
succeeds on the i-th validated image, and the exception text when it fails. -/
structure Env where
  pngquantPresent : Bool
  ocrOk : Nat → Bool
  ocrErr : Nat → String

/-- The UI messages the function emits, one constructor per `st.warning` /
`st.error` call site of `process_zip_to_searchable_pdf`:
line 53 `st.warning(f"Skipped {file}: {str(e)}")`,
line 74 `st.warning("pngquant not found. Disabling image compression.")`,
line 56 `st.error("No valid images found in the ZIP file")`,
line 108 `st.error(f"OCR Processing failed: {str(ocr_err)}")`,
line 112 `st.error(f"Error processing ZIP file: {str(e)}")`. -/
inductive Msg where
  | warnSkipped (file : String) (err : String)
  | warnPngquant
  | errNoValidImages
  | errOcrFailed (err : String)
  | errZip (err : String)
deriving Repr, DecidableEq

/-- Whether a message is an `st.error` (as opposed to an `st.warning`). -/
def Msg.isError : Msg → Bool
  | .warnSkipped _ _ => false
  | .warnPngquant => false
  | _ => true

/-- A file on disk: inside the first temporary directory (`temp_dir`), inside
the second (`output_dir`), or anywhere else.  `tempfile.TemporaryDirectory`
guarantees fresh directory names, so pre-existing files are `other`. -/
inductive DiskFile where
  | tmp (name : String)
  | out (name : String)
  | other (name : String)
deriving Repr, DecidableEq

/-- A file survives the exit of the two `with tempfile.TemporaryDirectory()`
blocks iff it lies outside both temporary directories. -/
def keepFile : DiskFile → Bool
  | .other _ => true
  | _ => false

/-- Cleanup performed by the two `TemporaryDirectory` context managers on every
exit path (success, recoverable skip, fatal error, exception). -/
def cleanupTemp (disk : List DiskFile) : List DiskFile :=
  disk.filter keepFile

/-- The output document: the ordered list of its pages, each page the abstract
content of the raster it renders (plus that image's OCR text layer). -/
structure PdfDoc where
  pages : List Nat
deriving Repr, DecidableEq

/-- `valid_extensions` (line 33). -/
def valid_extensions : List String := [".jpg", ".jpeg", ".png", ".gif", ".tiff", ".bmp"]

/-- ASCII lowercasing of one character — the fragment of Python's `str.lower`
relevant to matching the ASCII extension alphabet. -/
def lowerChar (c : Char) : Char :=
  if 65 ≤ c.toNat && c.toNat ≤ 90 then Char.ofNat (c.toNat + 32) else c

/-- Python's `file.lower()` on the file name (ASCII fragment). -/
def lowerStr (s : String) : String :=
  ⟨s.data.map lowerChar⟩

/-- Whether the first character list is a prefix of the second. -/
def isPrefixList : List Char → List Char → Bool
  | [], _ => true
  | _ :: _, [] => false
  | a :: as, b :: bs => a == b && isPrefixList as bs

/-- Python's `s.endswith(suffix)`. -/
def strEndsWith (s suffix : String) : Bool :=
  isPrefixList suffix.data.reverse s.data.reverse

/-- The filter of line 39:
`any(file.lower().endswith(ext) for ext in valid_extensions)`. -/
def keepName (file : String) : Bool :=
  valid_extensions.any (fun ext => strEndsWith (lowerStr file) ext)

/-- Code-point lexicographic comparison of character lists — Python's
comparison of `str` values. -/
def charListLe : List Char → List Char → Bool
  | [], _ => true
  | _ :: _, [] => false
  | a :: as, b :: bs => if a < b then true else if b < a then false else charListLe as bs

/-- Python's `<=` on strings: code-point lexicographic. -/
def strLe (s t : String) : Bool :=
  charListLe s.data t.data

/-- Stable insertion of an entry into an already-sorted list: the new entry
goes before the first entry whose name is not below it. -/
def insertEntry (e : ZipEntry) : List ZipEntry → List ZipEntry
  | [] => [e]
  | x :: xs => if strLe e.name x.name then e :: x :: xs else x :: insertEntry e xs

/-- Python's `sorted(files)` (line 38): stable sort, ascending by name under
code-point lexicographic comparison; modelled as stable insertion sort. -/
def sortEntries : List ZipEntry → List ZipEntry
  | [] => []
  | e :: rest => insertEntry e (sortEntries rest)

/-- The ingestion loop of lines 38-53, over the sorted file list: entries not
passing the extension filter are ignored; entries failing to decode are
skipped with a warning; decodable entries are validated, saved and appended
to `image_paths`. -/
def ingestLoop : List ZipEntry → List ZipEntry → List Msg → List ZipEntry × List Msg
  | [], images, msgs => (images, msgs)
  | e :: rest, images, msgs =>
    if keepName e.name then
      if e.decodable then
        ingestLoop rest (images ++ [e]) msgs
      else
        ingestLoop rest images (msgs ++ [.warnSkipped e.name e.err])
    else
      ingestLoop rest images msgs

/-- The sequence of validated images the ingestion stage produces: the sorted
entries that pass the extension filter and decode successfully, in order. -/
def validatedEntries (entries : List ZipEntry) : List ZipEntry :=
  (sortEntries entries).filter (fun e => keepName e.name && e.decodable)

/-- The items skipped at ingestion, with their reasons, in processing order. -/
def skippedItems (entries : List ZipEntry) : List (String × String) :=
  ((sortEntries entries).filter (fun e => keepName e.name && !e.decodable)).map
    (fun e => (e.name, e.err))

/-- The effective optimization level of lines 65-75: the caller's value, or 0
when `pngquant` is not on the PATH. -/
def effectiveOptimize (env : Env) (optimize : Nat) : Nat :=
  if env.pngquantPresent then optimize else 0

/-- One invocation of `ocrmypdf.ocr`: the index and content of the input image,
the keyword arguments passed (`ocr_params` of lines 65-70, with `skip_text =
False` and `progress_bar = True`), and whether the call site additionally
passes the keyword `existing_pdf` (lines 87-92). -/
structure OcrCall where
  inputIdx : Nat
  inputContent : Nat
  language : String
  optimize : Nat
  skipText : Bool
  progressBar : Bool
  passesExistingPdf : Bool
deriving Repr, DecidableEq

/-- The exception text of a call to `ocrmypdf.ocr` that passes the keyword
argument `existing_pdf`, which the ocrmypdf API does not accept. -/
def existingPdfError : String :=
  "ocr() got an unexpected keyword argument existing_pdf"

/-- Model of the external `ocrmypdf.ocr` API.  Its keyword parameters
(`language`, `optimize`, `skip_text`, `progress_bar`, and the rest of its
documented signature) do not include `existing_pdf`, so a call passing that
keyword raises before any OCR work happens.  Otherwise the call's success is
given by the environment's per-image oracle; on success the output path holds
a single-page searchable PDF rendering the input image (the previous content
of the output path, if any, is replaced). -/
def ocrmypdfOcr (env : Env) (c : OcrCall) : Except String PdfDoc :=
  if c.passesExistingPdf then
    .error existingPdfError
  else if env.ocrOk c.inputIdx then
    .ok ⟨[c.inputContent]⟩
  else
    .error (env.ocrErr c.inputIdx)

/-- The loop of lines 85-92: for each remaining image, call `ocrmypdf.ocr`
with the extra keyword `existing_pdf`; an exception aborts the loop. -/
def appendLoop (env : Env) (lang : String) (eopt : Nat) :
    Nat → List ZipEntry → PdfDoc → List OcrCall → Except String PdfDoc × List OcrCall
  | _, [], cur, calls => (.ok cur, calls)
  | i, e :: rest, cur, calls =>
    let c : OcrCall := ⟨i, e.content, lang, eopt, false, true, true⟩
    match ocrmypdfOcr env c with
    | .ok doc => appendLoop env lang eopt (i + 1) rest doc (calls ++ [c])
    | .error s => (.error s, calls ++ [c])

/-- The outcome of the OCR/assembly stage (lines 59-109): the returned PDF (if
any), the messages emitted, the `ocrmypdf.ocr` calls made, and whether the
output file was written at least once. -/
structure StageOut where
  pdf : Option PdfDoc
  msgs : List Msg
  calls : List OcrCall
  outWritten : Bool
deriving Repr, DecidableEq

/-- The OCR/assembly stage, lines 59-109: build `ocr_params` with the
effective optimization level (warning when `pngquant` is missing); for a
single image, one `ocrmypdf.ocr` call; for several, one call for the first
image and then the append loop; any exception is caught at this level,
reported, and turns the whole batch into `None`. -/
def ocrStage (env : Env) (lang : String) (opt : Nat) (v : List ZipEntry) : StageOut :=
  let eopt := effectiveOptimize env opt
  let warn : List Msg := if env.pngquantPresent then [] else [.warnPngquant]
  match v with
  | [] => ⟨none, warn, [], false⟩
  | e :: rest =>
    let c0 : OcrCall := ⟨0, e.content, lang, eopt, false, true, false⟩
    match ocrmypdfOcr env c0 with
    | .error s => ⟨none, warn ++ [.errOcrFailed s], [c0], false⟩
    | .ok doc =>
      if rest.isEmpty then
        ⟨some doc, warn, [c0], true⟩
      else
        match appendLoop env lang eopt 1 rest doc [c0] with
        | (.ok final, calls) => ⟨some final, warn, calls, true⟩
        | (.error s, calls) => ⟨none, warn ++ [.errOcrFailed s], calls, true⟩

/-- Zero-padded three-digit index used in `f"image_{len(image_paths):03d}.jpg"`
(line 49). -/
def pad3 (n : Nat) : String :=
  if n < 10 then "00" ++ toString n
  else if n < 100 then "0" ++ toString n
  else toString n

/-- The result of one run of `process_zip_to_searchable_pdf`: the Python
return value (`pdf_bytes` or `None`) as `pdf`, the UI messages, the external
OCR calls made, and the final disk state. -/
structure RunResult where
  pdf : Option PdfDoc
  msgs : List Msg
  calls : List OcrCall
  disk : List DiskFile
deriving Repr, DecidableEq

/-- `process_zip_to_searchable_pdf` (lines 22-113).  Two temporary directories
are created and deleted again on every exit path; the archive is extracted
into the first; the ingestion loop validates images in sorted order; with no
validated image the run fails (`None`) after reporting; otherwise the
OCR/assembly stage runs, its output file is read back and returned on
success, and any exception there is caught, reported, and yields `None`.
An unreadable archive raises inside the outer `try`, is caught at line 111,
reported, and yields `None`. -/
def process_zip_to_searchable_pdf (env : Env) (zipFile : Archive)
    (language : String) (optimize : Nat) (disk : List DiskFile) : RunResult :=
  if zipFile.readable then
    let ing := ingestLoop (sortEntries zipFile.entries) [] []
    let v := ing.1
    let warns := ing.2
    let extracted := zipFile.entries.map (fun e => DiskFile.tmp e.name)
    let saved := (List.range v.length).map (fun i => DiskFile.tmp ("image_" ++ pad3 i ++ ".jpg"))
    if v.isEmpty then
      ⟨none, warns ++ [.errNoValidImages], [], cleanupTemp (disk ++ extracted ++ saved)⟩
    else
      let stage := ocrStage env language optimize v
      let outFiles := if stage.outWritten then [DiskFile.out "searchable_output.pdf"] else []
      ⟨stage.pdf, warns ++ stage.msgs, stage.calls,
        cleanupTemp (disk ++ extracted ++ saved ++ outFiles)⟩
  else
    ⟨none, [.errZip zipFile.readErr], [], cleanupTemp disk⟩

/-- Modelled from the spec: an `OcrToken` (§3) — text, axis-aligned pixel-space
bounding box `(x0, y0, x1, y1)` with top-left origin, and a confidence score.
The compositing core (`PageCompositor`, §4.4) is not under `src/`:
`src/pdf_read.py` delegates compositing wholly to the external ocrmypdf engine,
and the repository's other variants (the spec counts six, ~1080 lines) are not
included.  Coordinates and confidences are rationals. -/
structure OcrToken where
  text : String
  x0 : ℚ
  y0 : ℚ
  x1 : ℚ
  y1 : ℚ
  conf : ℚ
deriving Repr, DecidableEq

/-- Modelled from the spec: `PageGeometry` (§3, §4.3) — target page size in
points, scale factor, and centering offsets. -/
structure PageGeometry where
  pageW : ℚ
  pageH : ℚ
  scale : ℚ
  xOff : ℚ
  yOff : ℚ
deriving Repr, DecidableEq

/-- Modelled from the spec: the `CoordinateMapper` algorithm (§4.3). -/
def mkGeometry (imgW imgH pageW pageH : ℚ) : PageGeometry :=
  let scale := min (pageW / imgW) (pageH / imgH)
  ⟨pageW, pageH, scale, (pageW - imgW * scale) / 2, (pageH - imgH * scale) / 2⟩

/-- Modelled from the spec: the pixel-space to page-space point transform
(§4.3): `x' = x*scale + xOffset`, `y' = pageHeight - (y*scale + yOffset)`. -/
def toPageSpace (g : PageGeometry) (p : ℚ × ℚ) : ℚ × ℚ :=
  (p.1 * g.scale + g.xOff, g.pageH - (p.2 * g.scale + g.yOff))

/-- Modelled from the spec: the default confidence threshold (§4.4, §6). -/
def defaultConfidenceThreshold : ℚ := 1 / 2

/-- Modelled from the spec: the tokens a `PageCompositor` includes (§4.4) —
exactly those whose confidence is greater than or equal to the threshold. -/
def includedTokens (threshold : ℚ) (tokens : List OcrToken) : List OcrToken :=
  tokens.filter (fun t => threshold ≤ t.conf)

/-- Modelled from the spec: a `CompositedPage` (§3, §4.4) — the placed raster
and the invisible text tokens, each placed at the page-space image of its
bounding box's top-left pixel corner. -/
structure CompositedPage where
  raster : Nat
  texts : List (String × ℚ × ℚ)
deriving Repr, DecidableEq

/-- Modelled from the spec: the `PageCompositor` (§4.4). -/
def composePage (g : PageGeometry) (img : Nat) (threshold : ℚ)
    (tokens : List OcrToken) : CompositedPage :=
  ⟨img, (includedTokens threshold tokens).map (fun t => (t.text, toPageSpace g (t.x0, t.y0)))⟩

/-- Spec-side definition for the refinement claim on assembly strategies
(§4.5, strategy (a)): accumulate all composited pages within a single
document-building context and serialize once — the document whose page
sequence is exactly the given ordered page sequence. -/
def onePassAssemble (pages : List Nat) : PdfDoc :=
  ⟨pages⟩

/-! ## Helper lemmas -/

theorem mem_insertEntry {a e : ZipEntry} : ∀ {l : List ZipEntry},
    a ∈ insertEntry e l ↔ (a = e ∨ a ∈ l) := by
  intro l
  induction l with
  | nil => simp [insertEntry]
  | cons x xs ih =>
    by_cases h : strLe e.name x.name = true
    · simp [insertEntry, h]
    · simp [insertEntry, h, ih]
      tauto

theorem mem_sortEntries {a : ZipEntry} : ∀ {l : List ZipEntry},
    a ∈ sortEntries l ↔ a ∈ l := by
  intro l
  induction l with
  | nil => simp [sortEntries]
  | cons e rest ih => simp [sortEntries, mem_insertEntry, ih]

theorem ingestLoop_spec : ∀ (l : List ZipEntry) (images : List ZipEntry) (msgs : List Msg),
    ingestLoop l images msgs =
      (images ++ l.filter (fun e => keepName e.name && e.decodable),
       msgs ++ (l.filter (fun e => keepName e.name && !e.decodable)).map
         (fun e => Msg.warnSkipped e.name e.err)) := by
  intro l
  induction l with
  | nil => intro images msgs; simp [ingestLoop]
  | cons e rest ih =>
    intro images msgs
    by_cases hk : keepName e.name = true
    · by_cases hd : e.decodable = true
      · simp [ingestLoop, hk, hd, ih, List.filter_cons]
      · simp [ingestLoop, hk, hd, ih, List.filter_cons]
    · simp [ingestLoop, hk, ih, List.filter_cons]

theorem ingestLoop_fst (entries : List ZipEntry) :
    (ingestLoop (sortEntries entries) [] []).1 = validatedEntries entries := by
  rw [ingestLoop_spec]
  simp [validatedEntries]

theorem ingestLoop_snd (entries : List ZipEntry) :
    (ingestLoop (sortEntries entries) [] []).2 =
      (skippedItems entries).map (fun p => Msg.warnSkipped p.1 p.2) := by
  rw [ingestLoop_spec]
  simp [skippedItems]

theorem appendLoop_cons (env : Env) (lang : String) (eopt : Nat) (i : Nat)
    (e : ZipEntry) (rest : List ZipEntry) (cur : PdfDoc) (calls : List OcrCall) :
    appendLoop env lang eopt i (e :: rest) cur calls =
      (.error existingPdfError, calls ++ [⟨i, e.content, lang, eopt, false, true, true⟩]) := by
  simp [appendLoop, ocrmypdfOcr]

theorem ocrStage_nil (env : Env) (lang : String) (opt : Nat) :
    ocrStage env lang opt [] =
      ⟨none, if env.pngquantPresent then [] else [.warnPngquant], [], false⟩ := by
  simp [ocrStage]

theorem ocrStage_fail0 (env : Env) (lang : String) (opt : Nat) (e : ZipEntry)
    (rest : List ZipEntry) (h : env.ocrOk 0 = false) :
    ocrStage env lang opt (e :: rest) =
      ⟨none,
       (if env.pngquantPresent then [] else [.warnPngquant]) ++ [.errOcrFailed (env.ocrErr 0)],
       [⟨0, e.content, lang, effectiveOptimize env opt, false, true, false⟩], false⟩ := by
  simp [ocrStage, ocrmypdfOcr, h]

theorem ocrStage_single_ok (env : Env) (lang : String) (opt : Nat) (e : ZipEntry)
    (h : env.ocrOk 0 = true) :
    ocrStage env lang opt [e] =
      ⟨some ⟨[e.content]⟩, if env.pngquantPresent then [] else [.warnPngquant],
       [⟨0, e.content, lang, effectiveOptimize env opt, false, true, false⟩], true⟩ := by
  simp [ocrStage, ocrmypdfOcr, h]

theorem ocrStage_multi (env : Env) (lang : String) (opt : Nat) (e x : ZipEntry)
    (rest : List ZipEntry) (h : env.ocrOk 0 = true) :
    ocrStage env lang opt (e :: x :: rest) =
      ⟨none,
       (if env.pngquantPresent then [] else [.warnPngquant]) ++ [.errOcrFailed existingPdfError],
       [⟨0, e.content, lang, effectiveOptimize env opt, false, true, false⟩,
        ⟨1, x.content, lang, effectiveOptimize env opt, false, true, true⟩], true⟩ := by
  simp [ocrStage, ocrmypdfOcr, h, appendLoop_cons]

theorem warnList_shape (b : Bool) :
    ∀ m ∈ (if b then ([] : List Msg) else [Msg.warnPngquant]),
      m = Msg.warnPngquant ∨ ∃ s, m = Msg.errOcrFailed s := by
  cases b <;> simp

theorem warnList_not_error (b : Bool) :
    ∀ m ∈ (if b then ([] : List Msg) else [Msg.warnPngquant]), m.isError = false := by
  cases b <;> simp [Msg.isError]

theorem ocrStage_msgs_shape (env : Env) (lang : String) (opt : Nat) (v : List ZipEntry) :
    ∀ m ∈ (ocrStage env lang opt v).msgs,
      m = .warnPngquant ∨ ∃ s, m = .errOcrFailed s := by
  match v with
  | [] =>
    rw [ocrStage_nil]
    exact warnList_shape env.pngquantPresent
  | [e] =>
    by_cases h : env.ocrOk 0 = true
    · rw [ocrStage_single_ok env lang opt e h]
      exact warnList_shape env.pngquantPresent
    · rw [ocrStage_fail0 env lang opt e [] (by simpa using h)]
      intro m hm
      rcases List.mem_append.mp hm with hm | hm
      · exact warnList_shape env.pngquantPresent m hm
      · simp at hm
        exact Or.inr ⟨_, hm⟩
  | e :: x :: rest =>
    by_cases h : env.ocrOk 0 = true
    · rw [ocrStage_multi env lang opt e x rest h]
      intro m hm
      rcases List.mem_append.mp hm with hm | hm
      · exact warnList_shape env.pngquantPresent m hm
      · simp at hm
        exact Or.inr ⟨_, hm⟩
    · rw [ocrStage_fail0 env lang opt e (x :: rest) (by simpa using h)]
      intro m hm
      rcases List.mem_append.mp hm with hm | hm
      · exact warnList_shape env.pngquantPresent m hm
      · simp at hm
        exact Or.inr ⟨_, hm⟩

theorem ocrStage_calls_optimize (env : Env) (lang : String) (opt : Nat) (v : List ZipEntry) :
    ∀ c ∈ (ocrStage env lang opt v).calls, c.optimize = effectiveOptimize env opt := by
  match v with
  | [] =>
    rw [ocrStage_nil]
    intro c hc
    simp at hc
  | [e] =>
    by_cases h : env.ocrOk 0 = true
    · rw [ocrStage_single_ok env lang opt e h]
      intro c hc
      simp at hc
      subst hc
      rfl
    · rw [ocrStage_fail0 env lang opt e [] (by simpa using h)]
      intro c hc
      simp at hc
      subst hc
      rfl
  | e :: x :: rest =>
    by_cases h : env.ocrOk 0 = true
    · rw [ocrStage_multi env lang opt e x rest h]
      intro c hc
      simp at hc
      rcases hc with hc | hc <;> subst hc <;> rfl
    · rw [ocrStage_fail0 env lang opt e (x :: rest) (by simpa using h)]
      intro c hc
      simp at hc
      subst hc
      rfl

theorem ocrStage_pdf_some (env : Env) (lang : String) (opt : Nat) (v : List ZipEntry)
    (d : PdfDoc) (h : (ocrStage env lang opt v).pdf = some d) :
    d.pages = v.map (fun e => e.content) ∧
      ∀ m ∈ (ocrStage env lang opt v).msgs, m.isError = false := by
  match v with
  | [] =>
    rw [ocrStage_nil] at h
    simp at h
  | [e] =>
    by_cases hok : env.ocrOk 0 = true
    · rw [ocrStage_single_ok env lang opt e hok] at h ⊢
      simp only [Option.some.injEq] at h
      subst h
      refine ⟨by simp, ?_⟩
      exact warnList_not_error env.pngquantPresent
    · rw [ocrStage_fail0 env lang opt e [] (by simpa using hok)] at h
      simp at h
  | e :: x :: rest =>
    by_cases hok : env.ocrOk 0 = true
    · rw [ocrStage_multi env lang opt e x rest hok] at h
      simp at h
    · rw [ocrStage_fail0 env lang opt e (x :: rest) (by simpa using hok)] at h
      simp at h

theorem ocrStage_pdf_none (env : Env) (lang : String) (opt : Nat) (v : List ZipEntry)
    (hv : v ≠ []) (h : (ocrStage env lang opt v).pdf = none) :
    ∃ s, Msg.errOcrFailed s ∈ (ocrStage env lang opt v).msgs := by
  match v with
  | [] => exact absurd rfl hv
  | [e] =>
    by_cases hok : env.ocrOk 0 = true
    · rw [ocrStage_single_ok env lang opt e hok] at h
      simp at h
    · rw [ocrStage_fail0 env lang opt e [] (by simpa using hok)]
      exact ⟨env.ocrErr 0, by simp⟩
  | e :: x :: rest =>
    by_cases hok : env.ocrOk 0 = true
    · rw [ocrStage_multi env lang opt e x rest hok]
      exact ⟨existingPdfError, by simp⟩
    · rw [ocrStage_fail0 env lang opt e (x :: rest) (by simpa using hok)]
      exact ⟨env.ocrErr 0, by simp⟩

theorem skipped_warns_not_error : ∀ (l : List (String × String)) (m : Msg),
    m ∈ l.map (fun p => Msg.warnSkipped p.1 p.2) → m.isError = false := by
  intro l m hm
  rw [List.mem_map] at hm
  obtain ⟨p, _, rfl⟩ := hm
  rfl

theorem cleanupTemp_of_all_kept (d : List DiskFile) (h : ∀ p ∈ d, keepFile p = true) :
    cleanupTemp d = d := by
  simpa [cleanupTemp] using List.filter_eq_self.mpr h

theorem cleanupTemp_tmp_map {α : Type} (f : α → String) (l : List α) :
    cleanupTemp (l.map (fun x => DiskFile.tmp (f x))) = [] := by
  induction l with
  | nil => rfl
  | cons x xs ih => simpa [cleanupTemp, List.filter_cons, keepFile] using ih

theorem cleanupTemp_append (a b : List DiskFile) :
    cleanupTemp (a ++ b) = cleanupTemp a ++ cleanupTemp b := by
  simp [cleanupTemp, List.filter_append]

theorem process_eq_unreadable (env : Env) (arch : Archive) (lang : String) (opt : Nat)
    (disk : List DiskFile) (hr : arch.readable = false) :
    process_zip_to_searchable_pdf env arch lang opt disk =
      ⟨none, [.errZip arch.readErr], [], cleanupTemp disk⟩ := by
  unfold process_zip_to_searchable_pdf
  simp [hr]

theorem process_eq_noValid (env : Env) (arch : Archive) (lang : String) (opt : Nat)
    (disk : List DiskFile) (hr : arch.readable = true)
    (hv : validatedEntries arch.entries = []) :
    process_zip_to_searchable_pdf env arch lang opt disk =
      ⟨none,
       (skippedItems arch.entries).map (fun p => Msg.warnSkipped p.1 p.2) ++ [.errNoValidImages],
       [],
       cleanupTemp (disk ++ arch.entries.map (fun e => DiskFile.tmp e.name))⟩ := by
  unfold process_zip_to_searchable_pdf
  simp [hr, ingestLoop_fst, ingestLoop_snd, hv]

theorem process_eq_run (env : Env) (arch : Archive) (lang : String) (opt : Nat)
    (disk : List DiskFile) (hr : arch.readable = true)
    (hv : validatedEntries arch.entries ≠ []) :
    process_zip_to_searchable_pdf env arch lang opt disk =
      ⟨(ocrStage env lang opt (validatedEntries arch.entries)).pdf,
       (skippedItems arch.entries).map (fun p => Msg.warnSkipped p.1 p.2) ++
         (ocrStage env lang opt (validatedEntries arch.entries)).msgs,
       (ocrStage env lang opt (validatedEntries arch.entries)).calls,
       cleanupTemp (disk ++ arch.entries.map (fun e => DiskFile.tmp e.name) ++
         (List.range (validatedEntries arch.entries).length).map
           (fun i => DiskFile.tmp ("image_" ++ pad3 i ++ ".jpg")) ++
         (if (ocrStage env lang opt (validatedEntries arch.entries)).outWritten
            then [DiskFile.out "searchable_output.pdf"] else []))⟩ := by
  unfold process_zip_to_searchable_pdf
  simp [hr, ingestLoop_fst, ingestLoop_snd, hv]

theorem warn_of_skipped (env : Env) (arch : Archive) (lang : String) (opt : Nat)
    (disk : List DiskFile) (hr : arch.readable = true) (e : ZipEntry)
    (he : e ∈ arch.entries) (hk : keepName e.name = true) (hd : e.decodable = false) :
    Msg.warnSkipped e.name e.err ∈ (process_zip_to_searchable_pdf env arch lang opt disk).msgs := by
  have hmem : Msg.warnSkipped e.name e.err ∈
      (skippedItems arch.entries).map (fun p => Msg.warnSkipped p.1 p.2) := by
    rw [List.mem_map]
    refine ⟨(e.name, e.err), ?_, rfl⟩
    rw [skippedItems, List.mem_map]
    refine ⟨e, ?_, rfl⟩
    rw [List.mem_filter]
    exact ⟨mem_sortEntries.mpr he, by simp [hk, hd]⟩
  by_cases hv : validatedEntries arch.entries = []
  · rw [process_eq_noValid env arch lang opt disk hr hv]
    exact List.mem_append_left _ hmem
  · rw [process_eq_run env arch lang opt disk hr hv]
    exact List.mem_append_left _ hmem

/-! ## Claims -/

/-- C1: the code evaluated at the claim's failing input.  A ZIP with two
decodable images (`a.jpg`, `b.jpg`), OCR succeeding on every image and
`pngquant` present: both images are decoded (N = 2), yet the conversion
returns no document at all — the second `ocrmypdf.ocr` call passes the
keyword `existing_pdf`, which the ocrmypdf API does not accept, so the append
step fails and the handler returns `None`.  The claim asks for a 2-page
document in ascending entry-name order; the code's own comments ("If multiple
images, create a multi-page PDF", "Append subsequent images") state that
intent. -/
theorem C1_code_bug_eval :
    (validatedEntries [⟨"a.jpg", 1, true, ""⟩, ⟨"b.jpg", 2, true, ""⟩]).length = 2
  ∧ (process_zip_to_searchable_pdf ⟨true, fun _ => true, fun _ => ""⟩
      ⟨true, "", [⟨"a.jpg", 1, true, ""⟩, ⟨"b.jpg", 2, true, ""⟩]⟩ "eng" 2 []).pdf = none
  ∧ Msg.errOcrFailed existingPdfError ∈ (process_zip_to_searchable_pdf
      ⟨true, fun _ => true, fun _ => ""⟩
      ⟨true, "", [⟨"a.jpg", 1, true, ""⟩, ⟨"b.jpg", 2, true, ""⟩]⟩ "eng" 2 []).msgs := by
  refine ⟨by decide, by decide, by decide⟩

/-- C2: counterexample.  A ZIP with two decodable images where the OCR stage
fails on exactly the first image (`ocrOk 0 = false`, `ocrOk i = true` for the
rest): the whole batch aborts and the returned document is `None` — the
remaining image contributes no page, contradicting "it never aborts the
batch, and the remaining images still contribute pages". -/
theorem C2_counterexample :
    (validatedEntries [⟨"p1.jpg", 4, true, ""⟩, ⟨"p2.jpg", 6, true, ""⟩]).length = 2
  ∧ (process_zip_to_searchable_pdf ⟨true, fun i => !(i == 0), fun _ => "tesseract error"⟩
      ⟨true, "", [⟨"p1.jpg", 4, true, ""⟩, ⟨"p2.jpg", 6, true, ""⟩]⟩ "eng" 2 []).pdf = none
  ∧ Msg.errOcrFailed "tesseract error" ∈ (process_zip_to_searchable_pdf
      ⟨true, fun i => !(i == 0), fun _ => "tesseract error"⟩
      ⟨true, "", [⟨"p1.jpg", 4, true, ""⟩, ⟨"p2.jpg", 6, true, ""⟩]⟩ "eng" 2 []).msgs := by
  refine ⟨by decide, by decide, by decide⟩

/-- C2 (amended): an exception from the OCR stage on any image is caught at
batch level and aborts the whole conversion: an error is reported and the
function returns no document, so the remaining images contribute no pages. -/
theorem C2_amended (env : Env) (arch : Archive) (lang : String) (opt : Nat)
    (disk : List DiskFile) (hr : arch.readable = true)
    (hv : validatedEntries arch.entries ≠ []) (hfail : env.ocrOk 0 = false) :
    (process_zip_to_searchable_pdf env arch lang opt disk).pdf = none
  ∧ Msg.errOcrFailed (env.ocrErr 0) ∈
      (process_zip_to_searchable_pdf env arch lang opt disk).msgs := by
  rw [process_eq_run env arch lang opt disk hr hv]
  match hval : validatedEntries arch.entries with
  | [] => exact absurd hval hv
  | e :: rest =>
    rw [ocrStage_fail0 env lang opt e rest hfail]
    constructor
    · rfl
    · exact List.mem_append_right _ (List.mem_append_right _ (by simp))

/-- C2 (amended) witness. -/
theorem C2_amended_witness :
    (process_zip_to_searchable_pdf ⟨true, fun _ => false, fun _ => "boom"⟩
      ⟨true, "", [⟨"a.jpg", 1, true, ""⟩]⟩ "eng" 2 []).pdf = none :=
  (C2_amended ⟨true, fun _ => false, fun _ => "boom"⟩ ⟨true, "", [⟨"a.jpg", 1, true, ""⟩]⟩
    "eng" 2 [] (by decide) (by decide) (by decide)).1

/-- C3: counterexample.  Two archives — one with a single decodable image,
one with the same image plus an entry that fails decoding — produce exactly
the same successful return value, although their skip lists differ (empty
versus one `(item, reason)` pair).  The return value of the function (the
Python `return pdf_bytes` of line 105, field `pdf` here) therefore carries no
skip list: the claim that every successful invocation returns both the
document bytes and the skip list is false.  The skipped item is reported only
as a UI warning message. -/
theorem C3_counterexample :
    (process_zip_to_searchable_pdf ⟨true, fun _ => true, fun _ => ""⟩
        ⟨true, "", [⟨"a.jpg", 7, true, ""⟩]⟩ "eng" 2 []).pdf
      = (process_zip_to_searchable_pdf ⟨true, fun _ => true, fun _ => ""⟩
        ⟨true, "", [⟨"a.jpg", 7, true, ""⟩, ⟨"b.jpg", 9, false, "cannot identify image file"⟩]⟩
        "eng" 2 []).pdf
  ∧ (process_zip_to_searchable_pdf ⟨true, fun _ => true, fun _ => ""⟩
        ⟨true, "", [⟨"a.jpg", 7, true, ""⟩]⟩ "eng" 2 []).pdf ≠ none
  ∧ skippedItems [(⟨"a.jpg", 7, true, ""⟩ : ZipEntry)]
      ≠ skippedItems [⟨"a.jpg", 7, true, ""⟩, ⟨"b.jpg", 9, false, "cannot identify image file"⟩] := by
  refine ⟨by decide, by decide, by decide⟩

/-- C3 (amended): successful invocations return only the document bytes; the
return value is determined by the decoded image sequence alone (so it cannot
carry the skip list), and every item that failed at ingestion is reported as
a UI warning message `Skipped <name>: <error>` instead. -/
theorem C3_amended (env : Env) (a b : Archive) (lang : String) (opt : Nat)
    (disk : List DiskFile) (ha : a.readable = true) (hb : b.readable = true)
    (hv : validatedEntries a.entries = validatedEntries b.entries) :
    (process_zip_to_searchable_pdf env a lang opt disk).pdf
      = (process_zip_to_searchable_pdf env b lang opt disk).pdf
  ∧ ∀ e ∈ a.entries, keepName e.name = true → e.decodable = false →
      Msg.warnSkipped e.name e.err ∈ (process_zip_to_searchable_pdf env a lang opt disk).msgs := by
  constructor
  · by_cases hva : validatedEntries a.entries = []
    · rw [process_eq_noValid env a lang opt disk ha hva,
        process_eq_noValid env b lang opt disk hb (hv ▸ hva)]
    · rw [process_eq_run env a lang opt disk ha hva,
        process_eq_run env b lang opt disk hb (hv ▸ hva), hv]
  · intro e he hk hd
    exact warn_of_skipped env a lang opt disk ha e he hk hd

/-- C3 (amended) witness. -/
theorem C3_amended_witness :
    Msg.warnSkipped "bad.png" "broken" ∈ (process_zip_to_searchable_pdf
      ⟨true, fun _ => true, fun _ => ""⟩
      ⟨true, "", [⟨"a.jpg", 7, true, ""⟩, ⟨"bad.png", 9, false, "broken"⟩]⟩ "eng" 2 []).msgs :=
  (C3_amended ⟨true, fun _ => true, fun _ => ""⟩
    ⟨true, "", [⟨"a.jpg", 7, true, ""⟩, ⟨"bad.png", 9, false, "broken"⟩]⟩
    ⟨true, "", [⟨"a.jpg", 7, true, ""⟩]⟩ "eng" 2 [] (by decide) (by decide) (by decide)).2
    ⟨"bad.png", 9, false, "broken"⟩ (by decide) (by decide) (by decide)

/-- C4: token filtering of the `PageCompositor` (modelled from the spec —
the compositing core is not under `src/`; `src/pdf_read.py` delegates it to
the external ocrmypdf engine).  A token is placed on the composited page iff
its confidence is greater than or equal to the threshold; a confidence
exactly equal to the threshold is included; tokens below threshold are
dropped entirely; the default threshold is 0.5. -/
theorem C4_token_filtering (threshold : ℚ) (g : PageGeometry) (img : Nat)
    (tokens : List OcrToken) (t : OcrToken) :
    ((composePage g img threshold tokens).texts
      = (includedTokens threshold tokens).map (fun u => (u.text, toPageSpace g (u.x0, u.y0))))
  ∧ (t ∈ includedTokens threshold tokens ↔ (t ∈ tokens ∧ threshold ≤ t.conf))
  ∧ (t ∈ tokens → t.conf = threshold → t ∈ includedTokens threshold tokens)
  ∧ defaultConfidenceThreshold = 1 / 2 := by
  refine ⟨rfl, ?_, ?_, rfl⟩
  · simp [includedTokens, List.mem_filter]
  · intro ht hc
    rw [includedTokens, List.mem_filter]
    exact ⟨ht, by simp [hc]⟩

/-- C4 witness. -/
theorem C4_token_filtering_witness :
    (⟨"word", 10, 20, 30, 40, 1 / 2⟩ : OcrToken)
      ∈ includedTokens defaultConfidenceThreshold [⟨"word", 10, 20, 30, 40, 1 / 2⟩] :=
  (C4_token_filtering defaultConfidenceThreshold (mkGeometry 800 600 612 792) 0
    [⟨"word", 10, 20, 30, 40, 1 / 2⟩] ⟨"word", 10, 20, 30, 40, 1 / 2⟩).2.2.1
    (List.mem_singleton.mpr rfl) rfl

/-- C5: the code evaluated at the claim's failing input.  For the ordered
two-page sequence arising from a ZIP with two decodable images (OCR
succeeding everywhere), one-pass assembly yields a document with the two
pages in order, while the code's sequential-merge path — the only multi-page
path it has — fails at its first merge call (`existing_pdf` is not a
parameter of `ocrmypdf.ocr`) and yields no document at all; the two
strategies are therefore not equivalent in the code, against the stated
intent ("Append subsequent images"). -/
theorem C5_code_bug_eval :
    (onePassAssemble ((validatedEntries
        [⟨"s1.jpg", 11, true, ""⟩, ⟨"s2.jpg", 22, true, ""⟩]).map (fun e => e.content))).pages
      = [11, 22]
  ∧ (process_zip_to_searchable_pdf ⟨true, fun _ => true, fun _ => ""⟩
      ⟨true, "", [⟨"s1.jpg", 11, true, ""⟩, ⟨"s2.jpg", 22, true, ""⟩]⟩ "eng" 2 []).pdf = none := by
  refine ⟨by decide, by decide⟩

/-- C6: per-entry decode failure during ingestion is recoverable.  The
ingestion loop's output is exactly the sorted, extension-filtered, decodable
entries (a failing entry is dropped while the remaining ones are still
processed); each kept entry that fails decoding is reported with a `Skipped`
warning; and the `No valid images found in the ZIP file` error is emitted iff
the decoded sequence is empty, in which case no document is returned. -/
theorem C6_ingestion_recovery (env : Env) (arch : Archive) (lang : String) (opt : Nat)
    (disk : List DiskFile) (hr : arch.readable = true) :
    ((ingestLoop (sortEntries arch.entries) [] []).1 = validatedEntries arch.entries)
  ∧ (∀ e ∈ arch.entries, keepName e.name = true → e.decodable = false →
      Msg.warnSkipped e.name e.err ∈ (process_zip_to_searchable_pdf env arch lang opt disk).msgs)
  ∧ (Msg.errNoValidImages ∈ (process_zip_to_searchable_pdf env arch lang opt disk).msgs
      ↔ validatedEntries arch.entries = [])
  ∧ (validatedEntries arch.entries = [] →
      (process_zip_to_searchable_pdf env arch lang opt disk).pdf = none) := by
  refine ⟨ingestLoop_fst arch.entries, ?_, ?_, ?_⟩
  · intro e he hk hd
    exact warn_of_skipped env arch lang opt disk hr e he hk hd
  · constructor
    · intro hmem
      by_contra hv
      rw [process_eq_run env arch lang opt disk hr hv] at hmem
      rcases List.mem_append.mp hmem with hmem | hmem
      · rw [List.mem_map] at hmem
        obtain ⟨p, _, hp⟩ := hmem
        exact Msg.noConfusion hp
      · rcases ocrStage_msgs_shape env lang opt (validatedEntries arch.entries)
          Msg.errNoValidImages hmem with h | ⟨s, h⟩ <;> exact Msg.noConfusion h
    · intro hv
      rw [process_eq_noValid env arch lang opt disk hr hv]
      exact List.mem_append_right _ (by simp)
  · intro hv
    rw [process_eq_noValid env arch lang opt disk hr hv]

/-- C6 witness. -/
theorem C6_ingestion_recovery_witness :
    Msg.warnSkipped "z.gif" "oops" ∈ (process_zip_to_searchable_pdf
      ⟨true, fun _ => true, fun _ => ""⟩
      ⟨true, "", [⟨"ok.jpg", 3, true, ""⟩, ⟨"z.gif", 8, false, "oops"⟩]⟩ "eng" 2 []).msgs :=
  (C6_ingestion_recovery ⟨true, fun _ => true, fun _ => ""⟩
    ⟨true, "", [⟨"ok.jpg", 3, true, ""⟩, ⟨"z.gif", 8, false, "oops"⟩]⟩ "eng" 2 [] (by decide)).2.1
    ⟨"z.gif", 8, false, "oops"⟩ (by decide) (by decide) (by decide)

/-- C7: every failing execution produces no document at all.  The return
value is `None` exactly when an error was reported (unreadable archive, no
valid images, or an OCR/assembly exception), and whenever a document is
returned it is the complete document: one page per validated image, in
order — never a partially built document. -/
theorem C7_all_or_nothing (env : Env) (arch : Archive) (lang : String) (opt : Nat)
    (disk : List DiskFile) :
    ((process_zip_to_searchable_pdf env arch lang opt disk).pdf = none
      ↔ ∃ m ∈ (process_zip_to_searchable_pdf env arch lang opt disk).msgs, m.isError = true)
  ∧ (∀ d, (process_zip_to_searchable_pdf env arch lang opt disk).pdf = some d →
      d.pages = (validatedEntries arch.entries).map (fun e => e.content)) := by
  by_cases hr : arch.readable = true
  · by_cases hv : validatedEntries arch.entries = []
    · rw [process_eq_noValid env arch lang opt disk hr hv]
      refine ⟨⟨fun _ => ⟨Msg.errNoValidImages, List.mem_append_right _ (by simp), rfl⟩,
        fun _ => rfl⟩, fun d hd => Option.noConfusion hd⟩
    · rw [process_eq_run env arch lang opt disk hr hv]
      constructor
      · constructor
        · intro hnone
          obtain ⟨s, hs⟩ := ocrStage_pdf_none env lang opt (validatedEntries arch.entries) hv hnone
          exact ⟨Msg.errOcrFailed s, List.mem_append_right _ hs, rfl⟩
        · intro ⟨m, hm, herr⟩
          match hpdf : (ocrStage env lang opt (validatedEntries arch.entries)).pdf with
          | none => rfl
          | some d =>
            exfalso
            have hnoerr := (ocrStage_pdf_some env lang opt (validatedEntries arch.entries) d hpdf).2
            rcases List.mem_append.mp hm with hm | hm
            · rw [skipped_warns_not_error _ m hm] at herr
              exact Bool.noConfusion herr
            · rw [hnoerr m hm] at herr
              exact Bool.noConfusion herr
      · intro d hd
        exact (ocrStage_pdf_some env lang opt (validatedEntries arch.entries) d hd).1
  · rw [process_eq_unreadable env arch lang opt disk (by simpa using hr)]
    refine ⟨⟨fun _ => ⟨Msg.errZip arch.readErr, by simp, rfl⟩, fun _ => rfl⟩,
      fun d hd => Option.noConfusion hd⟩

/-- C7 witness. -/
theorem C7_all_or_nothing_witness :
    (⟨[5]⟩ : PdfDoc).pages
      = (validatedEntries [(⟨"a.jpg", 5, true, ""⟩ : ZipEntry)]).map (fun e => e.content) :=
  (C7_all_or_nothing ⟨true, fun _ => true, fun _ => ""⟩ ⟨true, "", [⟨"a.jpg", 5, true, ""⟩]⟩
    "eng" 2 []).2 ⟨[5]⟩ (by decide)

/-- The enumerated extension set of the claim, without dots. -/
def claimedExtensions : List String := ["jpg", "jpeg", "png", "gif", "tiff", "bmp"]

/-- C8: an archive entry is kept for processing iff its name ends with a
supported extension from the enumerated set — i.e. iff the lowercased name
ends with a dot followed by one of `jpg, jpeg, png, gif, tiff, bmp` (the
source lowercases the name before matching, so the extension match is
case-insensitive, and every extension carries the leading dot); all other
entries are excluded from the batch. -/
theorem C8_extension_filter (entries : List ZipEntry) (e : ZipEntry) :
    (e ∈ (sortEntries entries).filter (fun x => keepName x.name)
      ↔ (e ∈ entries ∧ keepName e.name = true))
  ∧ (keepName e.name = true
      ↔ ∃ ext ∈ claimedExtensions, strEndsWith (lowerStr e.name) ("." ++ ext) = true) := by
  constructor
  · rw [List.mem_filter, mem_sortEntries]
  · have hdef : keepName e.name
        = claimedExtensions.any (fun ext => strEndsWith (lowerStr e.name) ("." ++ ext)) := rfl
    rw [hdef, List.any_eq_true]

/-- C9: no state persists across invocations.  All files the call creates
live inside the two temporary directories and those are deleted on every exit
path (success, per-item skip, fatal error, exception); so the final disk
state equals the initial one, provided the initial disk holds no file inside
the fresh temporary directories (which `tempfile` guarantees). -/
theorem C9_no_persistent_state (env : Env) (arch : Archive) (lang : String) (opt : Nat)
    (disk : List DiskFile) (h : ∀ p ∈ disk, keepFile p = true) :
    (process_zip_to_searchable_pdf env arch lang opt disk).disk = disk := by
  have hdisk := cleanupTemp_of_all_kept disk h
  have hext : cleanupTemp (arch.entries.map (fun e => DiskFile.tmp e.name)) = [] :=
    cleanupTemp_tmp_map (fun e => e.name) arch.entries
  have hsav : ∀ n : Nat, cleanupTemp ((List.range n).map
      (fun i => DiskFile.tmp ("image_" ++ pad3 i ++ ".jpg"))) = [] :=
    fun n => cleanupTemp_tmp_map (fun i => "image_" ++ pad3 i ++ ".jpg") (List.range n)
  by_cases hr : arch.readable = true
  · by_cases hv : validatedEntries arch.entries = []
    · rw [process_eq_noValid env arch lang opt disk hr hv]
      simp [cleanupTemp_append, hdisk, hext]
    · rw [process_eq_run env arch lang opt disk hr hv]
      dsimp only
      rw [cleanupTemp_append, cleanupTemp_append, cleanupTemp_append, hdisk, hext, hsav]
      by_cases hw : (ocrStage env lang opt (validatedEntries arch.entries)).outWritten = true <;>
        simp [hw, cleanupTemp, keepFile]
  · rw [process_eq_unreadable env arch lang opt disk (by simpa using hr)]
    exact hdisk

/-- C9 witness. -/
theorem C9_no_persistent_state_witness :
    (process_zip_to_searchable_pdf ⟨true, fun _ => true, fun _ => ""⟩
      ⟨true, "", [⟨"a.jpg", 1, true, ""⟩, ⟨"b.txt", 2, true, ""⟩]⟩ "eng" 2
      [DiskFile.other "user.txt"]).disk = [DiskFile.other "user.txt"] :=
  C9_no_persistent_state ⟨true, fun _ => true, fun _ => ""⟩
    ⟨true, "", [⟨"a.jpg", 1, true, ""⟩, ⟨"b.txt", 2, true, ""⟩]⟩ "eng" 2
    [DiskFile.other "user.txt"] (by decide)

/-- C10: when `pngquant` is absent from the PATH the OCR optimization level
is forced to 0 for every `ocrmypdf.ocr` call of the batch, overriding the
caller-supplied value without raising any error; when `pngquant` is present
the caller's value is passed to every call unchanged. -/
theorem C10_pngquant_override (env : Env) (arch : Archive) (lang : String) (opt : Nat)
    (disk : List DiskFile) (c : OcrCall)
    (hc : c ∈ (process_zip_to_searchable_pdf env arch lang opt disk).calls) :
    c.optimize = (if env.pngquantPresent then opt else 0) := by
  by_cases hr : arch.readable = true
  · by_cases hv : validatedEntries arch.entries = []
    · rw [process_eq_noValid env arch lang opt disk hr hv] at hc
      exact absurd hc (List.not_mem_nil c)
    · rw [process_eq_run env arch lang opt disk hr hv] at hc
      exact ocrStage_calls_optimize env lang opt (validatedEntries arch.entries) c hc
  · rw [process_eq_unreadable env arch lang opt disk (by simpa using hr)] at hc
    exact absurd hc (List.not_mem_nil c)

/-- C10 witness: with `pngquant` absent and caller value 3, the single OCR
call of the batch carries optimization level 0. -/
theorem C10_pngquant_override_witness :
    (⟨0, 5, "eng", 0, false, true, false⟩ : OcrCall).optimize
      = (if (⟨false, fun _ => true, fun _ => ""⟩ : Env).pngquantPresent then 3 else 0) :=
  C10_pngquant_override ⟨false, fun _ => true, fun _ => ""⟩
    ⟨true, "", [⟨"a.jpg", 5, true, ""⟩]⟩ "eng" 3 []
    ⟨0, 5, "eng", 0, false, true, false⟩ (by decide)

end ZipOcr
